import Mathlib

/-!
# Verification of the image-processing microservice core

Shallow embedding of the admission queue (`QueueService`, part_014 first
variant), the transformation pipeline (`ImageProcessorService`, part_016),
and the watermark compositor, checked against the natural-language
specification.

Conventions:
* Machine numbers are `Nat`/`Int`/`Rat` (the TypeScript sources only use
  small integral values in the code paths modelled here).
* JavaScript truthiness of optional numbers/strings is modelled explicitly
  (`some 0`, `some ""` are falsy).
* The sharp codec is external; calls into it are modelled symbolically as a
  declarative instruction list plus an explicit codec-call trace, with the
  documented contracts of `metadata()` and `resize` written out where a claim
  depends on them.
-/

namespace ImageService

/-- Pixel dimensions of an image (sharp metadata width/height). -/
structure Dims where
  width : Nat
  height : Nat
deriving DecidableEq, Repr

/-- Crop rectangle, from `ExtractDto` in process-image.dto.ts
(left/top ≥ 0, width/height ≥ 1 enforced by class-validator). -/
structure ExtractDto where
  left : Nat
  top : Nat
  width : Nat
  height : Nat
deriving DecidableEq, Repr

/-- The `fit` enum of `ResizeDto` ('cover' | 'contain' | 'fill' | 'inside' | 'outside'). -/
inductive Fit
  | cover
  | contain
  | fill
  | inside
  | outside
deriving DecidableEq, Repr

/-- `ResizeDto` from process-image.dto.ts: every field optional, numeric
fields constrained to 1..8192 by class-validator. -/
structure ResizeDto where
  maxDimension : Option Nat
  width : Option Nat
  height : Option Nat
  fit : Option Fit
  withoutEnlargement : Option Bool
  position : Option String
deriving DecidableEq, Repr

/-- Watermark mode ('single' | 'tile'). -/
inductive WatermarkMode
  | single
  | tile
deriving DecidableEq, Repr

/-- `WatermarkDto` as used by part_016 and declared in
dev_docs/watermark-implementation-plan.md: position one of nine gravity
strings (default southeast), opacity in [0,1], scale 1..100 (percent,
default 10), mode default single, spacing ≥ 0 pixels (default 0). -/
structure WatermarkDto where
  mode : Option WatermarkMode
  position : Option String
  opacity : Option Rat
  scale : Option Nat
  spacing : Option Nat
deriving DecidableEq, Repr

/-- `TransformDto` with the fields read by part_016's
`applyTransformations`/`processStream`: autoOrient, crop, resize, flip,
flop, rotate, flatten (a background colour string), watermark. -/
structure TransformDto where
  autoOrient : Option Bool
  crop : Option ExtractDto
  resize : Option ResizeDto
  flip : Option Bool
  flop : Option Bool
  rotate : Option Rat
  flatten : Option String
  watermark : Option WatermarkDto
deriving DecidableEq, Repr

/-- Output format enum of process-image.dto.ts (part_016 revision, with raw). -/
inductive ImageFormat
  | webp
  | avif
  | jpeg
  | png
  | gif
  | tiff
  | raw
deriving DecidableEq, Repr

/-- `OutputDto` from process-image.dto.ts. -/
structure OutputDto where
  format : Option ImageFormat
  quality : Option Nat
  lossless : Option Bool
  stripMetadata : Option Bool
  effort : Option Nat
  progressive : Option Bool
  mozjpeg : Option Bool
  compressionLevel : Option Nat
  chromaSubsampling : Option String
  palette : Option Bool
  colors : Option Nat
  dither : Option Rat
  adaptiveFiltering : Option Bool
deriving DecidableEq, Repr

/-- `ImageDefaults` from config/image.config.ts. -/
structure ImageDefaults where
  format : ImageFormat
  maxDimension : Nat
  quality : Nat
  effort : Nat
  lossless : Bool
  stripMetadata : Bool
  autoOrient : Bool
deriving DecidableEq, Repr

/-- `ImageConfig` from config/image.config.ts (the fields read by the
processor service; queue settings are modelled in `QueueState`). -/
structure ImageConfig where
  maxBytes : Nat
  defaults : ImageDefaults
  avifChromaSubsampling : String
  jpegProgressive : Bool
  jpegMozjpeg : Bool
  jpegChromaSubsampling : String
  pngCompressionLevel : Nat
deriving DecidableEq, Repr

/-- The static defaults registered in config/image.config.ts
(format webp, maxDimension 3840, quality 80, effort 6, lossless false,
stripMetadata false, autoOrient true; png compression level 6). -/
def defaultImageConfig : ImageConfig :=
  { maxBytes := 25 * 1024 * 1024
    defaults :=
      { format := .webp
        maxDimension := 3840
        quality := 80
        effort := 6
        lossless := false
        stripMetadata := false
        autoOrient := true }
    avifChromaSubsampling := "4:2:0"
    jpegProgressive := false
    jpegMozjpeg := false
    jpegChromaSubsampling := "4:2:0"
    pngCompressionLevel := 6 }

/-! ## JavaScript truthiness helpers -/

/-- Truthiness of an optional JS number: `undefined` and `0` are falsy. -/
def truthyNat (o : Option Nat) : Bool :=
  match o with
  | none => false
  | some n => n != 0

/-- Truthiness of an optional JS boolean: only `true` is truthy. -/
def truthyBool (o : Option Bool) : Bool :=
  o.getD false

/-- Truthiness of an optional JS string: `undefined` and `""` are falsy. -/
def truthyStr (o : Option String) : Bool :=
  match o with
  | none => false
  | some s => s != ""

/-! ## Admission queue (`QueueService`, part_014 first variant)

`p-queue` bookkeeping: `queue.size` is the number of queued tasks waiting to
run and `queue.pending` the number of running tasks (the service reads and
logs the two separately, e.g. in `getStatus`). A task added while fewer than
`concurrency` tasks are pending starts immediately; otherwise it waits. -/

/-- A job handed to `QueueService.add`; only its identity matters here. -/
abbrev Job := Nat

/-- State of the `QueueService`: the shutdown flag, the waiting collection
(`queue.size` elements), the running set (`queue.pending` elements), the
delivered results, and the configured limits. `maxQueueSize` is an `Int`
because it is parsed from an environment variable and the guard in `add`
explicitly tests `maxQueueSize > 0`. -/
structure QueueState where
  isShuttingDown : Bool
  waiting : List Job
  running : List Job
  completed : List Job
  maxQueueSize : Int
  maxConcurrency : Nat
deriving DecidableEq, Repr

/-- Typed admission errors raised by `QueueService.add` itself. -/
inductive AdmissionError
  | serviceUnavailable
  | overloaded
deriving DecidableEq, Repr

/-- Outcome of one call to `QueueService.add`. -/
inductive AddOutcome
  | accepted
  | rejected (e : AdmissionError)
deriving DecidableEq, Repr

/-- `QueueService.add` (part_014 lines 52-65): reject with
ServiceUnavailable while shutting down; reject with Overloaded (HTTP 429)
when `maxQueueSize > 0 && queue.size >= maxQueueSize`; otherwise hand the
task to `p-queue`, which starts it at once when a concurrency slot is free
and queues it otherwise. -/
def addTask (s : QueueState) (j : Job) : QueueState × AddOutcome :=
  if s.isShuttingDown then
    (s, .rejected .serviceUnavailable)
  else if 0 < s.maxQueueSize ∧ s.maxQueueSize ≤ (s.waiting.length : Int) then
    (s, .rejected .overloaded)
  else if s.running.length < s.maxConcurrency then
    ({ s with running := s.running ++ [j] }, .accepted)
  else
    ({ s with waiting := s.waiting ++ [j] }, .accepted)

/-- `onModuleDestroy` first action (part_014 line 121): set the shutdown
flag; nothing else in the state is touched. -/
def triggerShutdown (s : QueueState) : QueueState :=
  { s with isShuttingDown := true }

/-- `p-queue`'s `onIdle` condition, awaited by `onModuleDestroy`:
the queue is empty and no task is pending. -/
def queueIdle (s : QueueState) : Prop :=
  s.waiting = [] ∧ s.running = []

/-- Internal progress of `p-queue`, which keeps draining regardless of the
service's shutdown flag (the flag is only consulted inside `add`): a waiting
task starts when a concurrency slot is free; a running task completes and
its result is delivered. -/
inductive QStep : QueueState → QueueState → Prop
  | start (s : QueueState) (j : Job) (rest : List Job)
      (hw : s.waiting = j :: rest)
      (hc : s.running.length < s.maxConcurrency) :
      QStep s { s with waiting := rest, running := s.running ++ [j] }
  | complete (s : QueueState) (j : Job) (rs : List Job)
      (hr : s.running = j :: rs) :
      QStep s { s with running := rs, completed := s.completed ++ [j] }

/-- Reachability through queue progress steps. -/
def QReach : QueueState → QueueState → Prop :=
  Relation.ReflTransGen QStep

/-! ## Watermark compositor numerics (part_016 lines 312-436)

`Math.round` and `Math.ceil` on the non-negative rationals that occur here,
and the documented contract of sharp `resize` with `fit: 'inside'` and
`withoutEnlargement: true`. -/

/-- JavaScript `Math.round (a / b)` for natural `a` and positive `b`, in
exact integer arithmetic: rounding half up, `round (a / b) = ⌊(2a + b) / (2b)⌋`. -/
def jsRoundDiv (a b : Nat) : Nat :=
  (2 * a + b) / (2 * b)

/-- JavaScript `Math.ceil (a / b)` for natural `a` and positive natural `b`. -/
def jsCeilDiv (a b : Nat) : Nat :=
  (a + b - 1) / b

/-- Modelled contract of sharp `resize` with `fit: 'inside'` and
`withoutEnlargement: true` (sharp API docs): preserving aspect ratio, make
the image as large as possible while keeping both dimensions ≤ the target
box, and do not scale up when the dimensions already fit inside the box.
The scale factor is `f = min (box / width) (box / height)` and the output
dimensions are `round (width * f)` by `round (height * f)`, written here in
exact integer arithmetic: when `height ≤ width` the binding ratio is
`box / width`, so the output is `round (width * box / width)` by
`round (height * box / width)`, and symmetrically otherwise. -/
def insideFitNoEnlarge (native : Dims) (box : Nat) : Dims :=
  if native.width ≤ box ∧ native.height ≤ box then
    native
  else if native.height ≤ native.width then
    { width := jsRoundDiv (native.width * box) native.width
      height := jsRoundDiv (native.height * box) native.width }
  else
    { width := jsRoundDiv (native.width * box) native.height
      height := jsRoundDiv (native.height * box) native.height }

/-- `scaleWatermark` (part_016 lines 401-435), dimension semantics:
`targetSize = Math.min(imageWidth, imageHeight) * (scalePercent / 100)`,
then resize the overlay into a `Math.round(targetSize)` square box with
`fit: 'inside'` and `withoutEnlargement: true`. The JavaScript float
product is modelled as the exact rational, rounded half up. The optional
opacity only multiplies an alpha mask into the pixels (a `dest-in`
composite of a tiled 1x1 overlay) and does not change the dimensions, so
it is not a parameter here. -/
def scaleWatermark (wmNative : Dims) (scalePercent : Nat) (imageWidth imageHeight : Nat) : Dims :=
  insideFitNoEnlarge wmNative (jsRoundDiv (min imageWidth imageHeight * scalePercent) 100)

/-- One composite layer handed to sharp `composite`. -/
inductive OverlayPlacement
  | gravity (g : String)
  | at (top left : Nat)
deriving DecidableEq, Repr

/-- `createSingleWatermark` (part_016 lines 321-340): scale the overlay,
then composite it at the gravity anchor `config.position ?? 'southeast'`. -/
def createSingleWatermark (wmNative : Dims) (config : WatermarkDto)
    (imageWidth imageHeight : Nat) : Dims × OverlayPlacement :=
  (scaleWatermark wmNative (config.scale.getD 10) imageWidth imageHeight,
   .gravity (config.position.getD "southeast"))

/-- `createTiledWatermark` (part_016 lines 351-389): scale the overlay, read
its scaled dimensions back, then place `cols = Math.ceil(imageWidth /
(wmWidth + spacing))` by `rows = Math.ceil(imageHeight / (wmHeight +
spacing))` copies at `top = row * (wmHeight + spacing)`,
`left = col * (wmWidth + spacing)`, rows outer loop, cols inner loop. -/
def createTiledWatermark (wmNative : Dims) (config : WatermarkDto)
    (imageWidth imageHeight : Nat) : Dims × List OverlayPlacement :=
  let scaled := scaleWatermark wmNative (config.scale.getD 10) imageWidth imageHeight
  let wmWidth := scaled.width
  let wmHeight := scaled.height
  let spacing := config.spacing.getD 0
  let cols := jsCeilDiv imageWidth (wmWidth + spacing)
  let rows := jsCeilDiv imageHeight (wmHeight + spacing)
  (scaled,
   (List.range rows).flatMap fun row =>
     (List.range cols).map fun col =>
       .at (row * (wmHeight + spacing)) (col * (wmWidth + spacing)))

/-! ## Transformation pipeline (`ImageProcessorService`, part_016) -/

/-- Encode instruction issued to sharp by `applyOutputFormat`
(part_016 lines 219-258), one constructor per format case of the switch. -/
inductive EncodeOp
  | webp (quality : Nat) (lossless : Bool) (effort : Nat)
  | avif (quality : Nat) (lossless : Bool) (effort : Nat) (chromaSubsampling : String)
  | jpeg (quality : Nat) (progressive : Bool) (mozjpeg : Bool) (chromaSubsampling : String)
  | png (compressionLevel : Nat) (palette : Bool) (quality : Option Nat) (effort : Nat)
      (colors : Option Nat) (dither : Option Rat) (adaptiveFiltering : Option Bool)
  | gif
  | tiff (quality : Nat)
  | raw
deriving DecidableEq, Repr

/-- Declarative sharp instruction, one constructor per pipeline stage the
service chains. `encode` carries the `withMetadata` flag because
`withMetadata` configures the encoder rather than transforming pixels. -/
inductive SharpOp
  | autoOrient
  | extract (r : ExtractDto)
  | resize (width height : Option Nat) (fit : Fit) (withoutEnlargement : Bool)
      (position : Option String)
  | flip
  | flop
  | rotate (angle : Rat)
  | flatten (background : String)
  | composite (overlay : Dims) (layers : List OverlayPlacement)
  | encode (withMetadata : Bool) (e : EncodeOp)
deriving DecidableEq, Repr

/-- Typed pipeline errors (`BadRequestException` carries its message). -/
inductive PipelineError
  | badRequest (msg : String)
deriving DecidableEq, Repr

/-- The resize block of `applyTransformations` (part_016 lines 162-181):
throw when `maxDimension` is truthy together with a truthy `width` or
`height`; otherwise emit the `maxDimension` square inside-fit resize, or the
width/height resize (default fit 'cover'), or nothing when no dimension is
truthy. Default `withoutEnlargement` is true in both branches. -/
def resizeStep (r? : Option ResizeDto) : Except PipelineError (List SharpOp) :=
  match r? with
  | none => .ok []
  | some r =>
    if truthyNat r.maxDimension && (truthyNat r.width || truthyNat r.height) then
      .error (.badRequest "Cannot use maxDimension together with width/height")
    else if truthyNat r.maxDimension then
      .ok [.resize r.maxDimension r.maxDimension (r.fit.getD .inside)
            (r.withoutEnlargement.getD true) none]
    else if truthyNat r.width || truthyNat r.height then
      .ok [.resize r.width r.height (r.fit.getD .cover)
            (r.withoutEnlargement.getD true) r.position]
    else
      .ok []

/-- The instruction chain built by `applyTransformations` around the
resize block, in source order (part_016 lines 150-197): auto-orient, crop,
the resize instructions, flip, flop, manual rotate (applied whenever the
field is present, even at angle 0), flatten (a truthy background string). -/
def transformChain (defaults : ImageDefaults) (t : TransformDto)
    (resizeOps : List SharpOp) : List SharpOp :=
  (if t.autoOrient.getD defaults.autoOrient then [SharpOp.autoOrient] else []) ++
  (match t.crop with
    | some r => [SharpOp.extract r]
    | none => []) ++
  resizeOps ++
  (if truthyBool t.flip then [SharpOp.flip] else []) ++
  (if truthyBool t.flop then [SharpOp.flop] else []) ++
  (match t.rotate with
    | some a => [SharpOp.rotate a]
    | none => []) ++
  (match t.flatten with
    | some c => if c != "" then [SharpOp.flatten c] else []
    | none => [])

/-- `applyTransformations` (part_016 lines 141-198): with no transform,
apply only the default auto-orient; otherwise chain the operations of
`transformChain` around the resize block, whose validation failure (the
only throw) aborts the whole call. Chaining emits no pixel work, so
factoring the throw through `Except.map` preserves the source's
behaviour exactly. -/
def applyTransformations (defaults : ImageDefaults) (transform : Option TransformDto) :
    Except PipelineError (List SharpOp) :=
  match transform with
  | none =>
    if defaults.autoOrient then .ok [.autoOrient] else .ok []
  | some t =>
    (resizeStep t.resize).map (transformChain defaults t)

/-- Whether the resize block emits a resize instruction: a resize object is
present and carries a truthy `maxDimension`, `width` or `height`. -/
def resizeRequested (r? : Option ResizeDto) : Bool :=
  match r? with
  | none => false
  | some r => truthyNat r.maxDimension || truthyNat r.width || truthyNat r.height

/-- `applyOutputFormat` (part_016 lines 206-258): resolve format, quality
and stripMetadata per field against the defaults; call
`withMetadata(orientation := undefined)` exactly when stripping is NOT
requested; then dispatch on the format enum. Per-format options fall back
field by field to `ImageDefaults` or `ImageConfig`. PNG `palette` is
`output.palette ?? (output.quality !== undefined)`. The returned flag
records whether `withMetadata` was called. -/
def applyOutputFormat (cfg : ImageConfig) (output : Option OutputDto) : Bool × EncodeOp :=
  let format := (output.bind (·.format)).getD cfg.defaults.format
  let quality := (output.bind (·.quality)).getD cfg.defaults.quality
  let stripMetadata := (output.bind (·.stripMetadata)).getD cfg.defaults.stripMetadata
  let withMeta := !stripMetadata
  let e : EncodeOp :=
    match format with
    | .webp => .webp quality ((output.bind (·.lossless)).getD cfg.defaults.lossless)
        ((output.bind (·.effort)).getD cfg.defaults.effort)
    | .avif => .avif quality ((output.bind (·.lossless)).getD cfg.defaults.lossless)
        ((output.bind (·.effort)).getD cfg.defaults.effort)
        ((output.bind (·.chromaSubsampling)).getD cfg.avifChromaSubsampling)
    | .jpeg => .jpeg quality ((output.bind (·.progressive)).getD cfg.jpegProgressive)
        ((output.bind (·.mozjpeg)).getD cfg.jpegMozjpeg)
        ((output.bind (·.chromaSubsampling)).getD cfg.jpegChromaSubsampling)
    | .png => .png ((output.bind (·.compressionLevel)).getD cfg.pngCompressionLevel)
        ((output.bind (·.palette)).getD (output.bind (·.quality)).isSome)
        (output.bind (·.quality))
        ((output.bind (·.effort)).getD cfg.defaults.effort)
        (output.bind (·.colors)) (output.bind (·.dither))
        (output.bind (·.adaptiveFiltering))
    | .gif => .gif
    | .tiff => .tiff quality
    | .raw => .raw
  (withMeta, e)

/-- The variant of `applyOutputFormat` after the separator in
image-processor.service.ts (second variant, lines 397-404): identical
metadata handling code except that the condition is `if (stripMetadata)`,
so `withMetadata(orientation := undefined)` is called exactly when
stripping IS requested. Only the metadata decision is modelled. -/
def applyOutputFormatMetaSecondVariant (defaults : ImageDefaults) (output : Option OutputDto) :
    Bool :=
  let stripMetadata := (output.bind (·.stripMetadata)).getD defaults.stripMetadata
  stripMetadata

/-- Modelled effect of the emitted metadata instruction on the encoded
output, per the service's own comment (part_016 lines 211-212 and sharp's
defaults): without `withMetadata` sharp strips the embedded metadata; with
`withMetadata(orientation := undefined)` the embedded metadata is preserved
but the EXIF orientation tag is cleared, the auto-orient rotation being
already baked into the pixels. -/
structure MetadataEffect where
  preserved : Bool
  orientationTagKept : Bool
deriving DecidableEq, Repr

/-- Output metadata effect of the pipeline as a function of whether
`withMetadata(orientation := undefined)` was called. -/
def metadataEffect (withMeta : Bool) : MetadataEffect :=
  if withMeta then
    { preserved := true, orientationTagKept := false }
  else
    { preserved := false, orientationTagKept := false }

/-- A watermark file uploaded alongside the request; only its native
dimensions matter for the geometry checked here. -/
structure WatermarkFile where
  dims : Dims
deriving DecidableEq, Repr

/-- Codec (pixel-processing) invocations made by `processStream`, in
order: `pipeline.metadata()`, the `toBuffer` inside `scaleWatermark`, the
`sharp(scaledWatermark).metadata()` of tile mode, and the final
`pipeline.toBuffer()`. Chaining operations onto a sharp pipeline processes
no pixels; these four calls do. -/
inductive CodecCall
  | metadata
  | watermarkScale
  | watermarkMetadata
  | finalToBuffer
deriving DecidableEq, Repr

/-- Result trace of a successful `processStream` run: the declarative
instruction list issued to sharp, and, when a watermark was composited, the
base-image dimensions the compositor was given. -/
structure ProcessTrace where
  ops : List SharpOp
  watermarkBaseDims : Option Dims
deriving DecidableEq, Repr

/-- Documented contract of sharp `metadata()` (sharp API: "read from the
header of the input image; does not take into account any operations to be
applied to the output image, such as resize or rotate"): the dimensions
returned for a pipeline built over `inputBuffer` are the input's native
dimensions, whatever operations were chained. -/
def sharpMetadataDims (input : Dims) : Dims :=
  input

/-- `applyWatermark` (part_016 lines 283-310): destructure width/height
from the metadata, then tile or single composite. Returns the composite
layers issued. -/
def applyWatermark (wmFile : WatermarkFile) (config : WatermarkDto) (metadata : Dims) :
    Dims × List OverlayPlacement :=
  if config.mode = some .tile then
    createTiledWatermark wmFile.dims config metadata.width metadata.height
  else
    let single := createSingleWatermark wmFile.dims config metadata.width metadata.height
    (single.1, [single.2])

/-- The MIME gate of `processStream` (part_016 line 52):
`mimeType.startsWith('image/') || mimeType === 'application/octet-stream'`,
with the prefix test written character-wise. -/
def validMime (mimeType : String) : Bool :=
  "image/".data.isPrefixOf mimeType.data || mimeType == "application/octet-stream"

/-- `processStream` (part_016 lines 44-122), modelled as the codec-call
trace plus the outcome. Control flow of the source: reject bad MIME types;
build the transform chain (line 59, may throw the resize conflict); when
both a watermark file and `transform.watermark` are present, buffer the
input, rebuild the chain over the buffer, read `pipeline.metadata()` and
composite the watermark against those dimensions; then `applyOutputFormat`
and the final `toBuffer`. -/
def processStream (cfg : ImageConfig) (input : Dims) (mimeType : String)
    (transform : Option TransformDto) (output : Option OutputDto)
    (watermark : Option WatermarkFile) :
    List CodecCall × Except PipelineError ProcessTrace :=
  if !validMime mimeType then
    ([], .error (.badRequest ("Invalid MIME type: " ++ mimeType)))
  else
    match applyTransformations cfg.defaults transform with
    | .error e => ([], .error e)
    | .ok transformOps =>
      let outputOp := applyOutputFormat cfg output
      match watermark, transform.bind (·.watermark) with
      | some wmFile, some wmConfig =>
        let md := sharpMetadataDims input
        let comp := applyWatermark wmFile wmConfig md
        let wmCalls :=
          if wmConfig.mode = some .tile then
            [CodecCall.watermarkScale, CodecCall.watermarkMetadata]
          else
            [CodecCall.watermarkScale]
        ([CodecCall.metadata] ++ wmCalls ++ [CodecCall.finalToBuffer],
         .ok { ops := transformOps ++ [.composite comp.1 comp.2, .encode outputOp.1 outputOp.2]
               watermarkBaseDims := some md })
      | _, _ =>
        ([CodecCall.finalToBuffer],
         .ok { ops := transformOps ++ [.encode outputOp.1 outputOp.2]
               watermarkBaseDims := none })

/-! ## The fixed operation order (spec §4.2) -/

/-- The nine abstract pipeline steps of the specification's fixed order. -/
inductive Step
  | orient
  | crop
  | resize
  | flip
  | flop
  | rotate
  | flatten
  | watermark
  | encode
deriving DecidableEq, Repr

/-- The fixed sequence of the specification: orientation normalization,
crop, resize, flip, flop, rotate, flatten/background-fill, watermark
composite, format encode. -/
def fixedOrder : List Step :=
  [.orient, .crop, .resize, .flip, .flop, .rotate, .flatten, .watermark, .encode]

/-- The abstract step performed by a sharp instruction. -/
def stepOf (op : SharpOp) : Step :=
  match op with
  | .autoOrient => .orient
  | .extract _ => .crop
  | .resize _ _ _ _ _ => .resize
  | .flip => .flip
  | .flop => .flop
  | .rotate _ => .rotate
  | .flatten _ => .flatten
  | .composite _ _ => .watermark
  | .encode _ _ => .encode

/-- Which abstract steps a request asks for, read off the request exactly
as the source consults it: orient when the per-field-defaulted autoOrient
flag holds; crop/rotate when the field is present; resize when the resize
object carries a truthy dimension; flip/flop/flatten when truthy; watermark
when both an overlay file and `transform.watermark` are supplied; encode
always. -/
def requestedStep (defaults : ImageDefaults) (transform : Option TransformDto)
    (watermarkPresent : Bool) (st : Step) : Bool :=
  match st with
  | .orient =>
    match transform with
    | none => defaults.autoOrient
    | some t => t.autoOrient.getD defaults.autoOrient
  | .crop => (transform.bind (·.crop)).isSome
  | .resize => resizeRequested (transform.bind (·.resize))
  | .flip => truthyBool (transform.bind (·.flip))
  | .flop => truthyBool (transform.bind (·.flop))
  | .rotate => (transform.bind (·.rotate)).isSome
  | .flatten => truthyStr (transform.bind (·.flatten))
  | .watermark => watermarkPresent && (transform.bind (·.watermark)).isSome
  | .encode => true

/-- Whether an `Except` result is a success. -/
def exceptOk {ε α : Type} (r : Except ε α) : Bool :=
  match r with
  | .ok _ => true
  | .error _ => false

/-- The abstract step sequence of a pipeline outcome. -/
def stepsOf (r : Except PipelineError ProcessTrace) : Except PipelineError (List Step) :=
  r.map fun tr => tr.ops.map stepOf

/-! ## Post-transform dimensions (reference semantics for §4.3) -/

/-- Modelled from the spec: the pixel dimensions of the base image after
the geometric transforms of §4.2 have been applied — the dimensions the
watermark compositor is required to scale against ("watermark scaling is
always relative to the post-transform base image, never the original input
dimensions"). Orientation normalization of an already-upright image, flip,
flop and flatten preserve dimensions; crop yields the extracted rectangle;
resize follows the codec fit contract (`inside` as modelled above, `cover`
and `fill` produce the requested box when both dimensions are given);
rotation by a multiple of 180 preserves dimensions and by an odd multiple
of 90 swaps them (other angles expand the canvas and do not occur in the
inputs considered here, where the dimensions are left unchanged). -/
def specStepDims (d : Dims) (op : SharpOp) : Dims :=
  match op with
  | .extract r => { width := r.width, height := r.height }
  | .resize w? h? fit we _ =>
    match fit, w?, h? with
    | .inside, some w, some h =>
      if we then insideFitNoEnlarge d (min w h) else { width := w, height := h }
    | _, some w, some h => { width := w, height := h }
    | _, _, _ => d
  | .rotate a =>
    if (a / 180).den = 1 then d
    else if (a / 90).den = 1 then { width := d.height, height := d.width }
    else d
  | _ => d

/-- Modelled from the spec: fold the per-step dimension semantics over the
geometric instruction sequence. -/
def specPostTransformDims (input : Dims) (ops : List SharpOp) : Dims :=
  ops.foldl specStepDims input

/-- The `palette` flag of a PNG encode instruction. -/
def pngPaletteOf (e : EncodeOp) : Option Bool :=
  match e with
  | .png _ palette _ _ _ _ _ => some palette
  | _ => none

/-! ## Theorems -/

/-- C3, counterexample: with maxQueueSize = 1, one job running and none
queued, queued+running = 1 ≥ 1, so the claim demands an Overloaded
rejection; `QueueService.add` tests only `queue.size` (the waiting count,
here 0) and accepts the task. -/
theorem claim3_counterexample :
    let s : QueueState :=
      { isShuttingDown := false, waiting := [], running := [7], completed := []
        maxQueueSize := 1, maxConcurrency := 4 }
    s.maxQueueSize ≤ (s.waiting.length : Int) + (s.running.length : Int) ∧
    (addTask s 8).2 = .accepted := by
  decide

/-- C3, amended: for a live queue with a positive configured maximum, an
admission is rejected Overloaded — without enqueuing — exactly when the
number of queued (waiting, running excluded) jobs has reached
`maxQueueSize`: the rejection happens whenever `waiting ≥ maxQueueSize`
(with the state unchanged), and never otherwise, whatever the running
count; in particular an admission arriving when queued+running equals the
maximum minus one passes the depth check and is accepted. -/
theorem claim3_amended_queue_depth (s : QueueState) (j : Job)
    (hrun : s.isShuttingDown = false) (hpos : 0 < s.maxQueueSize) :
    ((addTask s j).2 = .rejected .overloaded ↔
      s.maxQueueSize ≤ (s.waiting.length : Int)) ∧
    (s.maxQueueSize ≤ (s.waiting.length : Int) →
      addTask s j = (s, .rejected .overloaded)) ∧
    ((s.waiting.length : Int) + (s.running.length : Int) = s.maxQueueSize - 1 →
      (addTask s j).2 = .accepted) := by
  have hforward : s.maxQueueSize ≤ (s.waiting.length : Int) →
      addTask s j = (s, .rejected .overloaded) := by
    intro h
    simp [addTask, hrun, hpos, h]
  refine ⟨⟨?_, fun h => by rw [hforward h]⟩, hforward, ?_⟩
  · intro h
    by_contra hno
    rw [not_le] at hno
    have hg : ¬ (0 < s.maxQueueSize ∧ s.maxQueueSize ≤ (s.waiting.length : Int)) := by
      rintro ⟨_, hle⟩
      omega
    unfold addTask at h
    rw [if_neg (by simp [hrun]), if_neg hg] at h
    split at h <;> simp at h
  · intro h
    have hw : ¬ (s.maxQueueSize ≤ (s.waiting.length : Int)) := by omega
    unfold addTask
    rw [if_neg (by simp [hrun]), if_neg (by rintro ⟨_, hle⟩; exact hw hle)]
    split <;> rfl

/-- C3, witness for the amended statement: maxQueueSize 2, two jobs
waiting, the next admission is rejected Overloaded with the state
unchanged. -/
theorem claim3_amended_queue_depth_witness :
    addTask
      { isShuttingDown := false, waiting := [0, 1], running := [], completed := []
        maxQueueSize := 2, maxConcurrency := 1 } 9 =
      ({ isShuttingDown := false, waiting := [0, 1], running := [], completed := []
         maxQueueSize := 2, maxConcurrency := 1 }, .rejected .overloaded) := by
  exact (claim3_amended_queue_depth _ 9 rfl (by decide)).2.1 (by decide)

/-- C9: when the configured maxQueueSize is zero or negative, the
queue-depth guard `maxQueueSize > 0 && queue.size >= maxQueueSize` can
never fire, so `QueueService.add` never rejects with Overloaded, whatever
the queue contents. -/
theorem claim9_depth_check_disabled (s : QueueState) (j : Job)
    (hm : s.maxQueueSize ≤ 0) :
    (addTask s j).2 ≠ .rejected .overloaded := by
  have hguard : ¬ (0 < s.maxQueueSize ∧ s.maxQueueSize ≤ (s.waiting.length : Int)) := by
    rintro ⟨h1, _⟩
    omega
  unfold addTask
  split
  · simp
  · split <;> simp

/-- C9, witness: maxQueueSize 0, three jobs queued and one running, the
admission is still not rejected Overloaded. -/
theorem claim9_depth_check_disabled_witness :
    (addTask
      { isShuttingDown := false, waiting := [1, 2, 3], running := [4], completed := []
        maxQueueSize := 0, maxConcurrency := 1 } 5).2 ≠ .rejected .overloaded := by
  exact claim9_depth_check_disabled _ 5 (by decide)

/-- C10: for PNG output, `palette: output.palette ?? (output.quality !==
undefined)` — a caller-specified quality with no palette option enables
palette quantization, and specifying neither leaves it disabled. -/
theorem claim10_png_palette_default (cfg : ImageConfig) (o : OutputDto)
    (hf : o.format.getD cfg.defaults.format = .png) (hp : o.palette = none) :
    (o.quality.isSome → pngPaletteOf (applyOutputFormat cfg (some o)).2 = some true) ∧
    (o.quality = none → pngPaletteOf (applyOutputFormat cfg (some o)).2 = some false) := by
  constructor
  · intro hq
    simp [applyOutputFormat, hf, hp, pngPaletteOf, hq]
  · intro hq
    simp [applyOutputFormat, hf, hp, pngPaletteOf, hq]

/-- C10, witness: quality 50 with no palette option yields palette = true;
neither option yields palette = false. -/
theorem claim10_png_palette_default_witness :
    pngPaletteOf (applyOutputFormat defaultImageConfig
      (some ⟨some .png, some 50, none, none, none, none, none, none, none, none,
        none, none, none⟩)).2 = some true ∧
    pngPaletteOf (applyOutputFormat defaultImageConfig
      (some ⟨some .png, none, none, none, none, none, none, none, none, none,
        none, none, none⟩)).2 = some false := by
  exact ⟨(claim10_png_palette_default defaultImageConfig
      ⟨some .png, some 50, none, none, none, none, none, none, none, none,
        none, none, none⟩ rfl rfl).1 rfl,
    (claim10_png_palette_default defaultImageConfig
      ⟨some .png, none, none, none, none, none, none, none, none, none,
        none, none, none⟩ rfl rfl).2 rfl⟩

/-- C7: the claim holds for part_016 and the first named-file variant,
whose `applyOutputFormat` preserves metadata with the orientation tag
cleared exactly when stripping is not requested; but the second variant in
image-processor.service.ts computes the same resolved `stripMetadata` and
then inverts the test (`if (stripMetadata)`), so a request that asks for
stripping gets its metadata preserved. Evaluated here at stripMetadata =
true: the second variant preserves the metadata the claim says must not be
preserved, and disagrees with the part_016 variant on the same input. -/
theorem claim7_second_variant_inverted :
    let o : OutputDto := ⟨some .webp, none, none, some true, none, none, none, none,
      none, none, none, none, none⟩
    (metadataEffect
      (applyOutputFormatMetaSecondVariant defaultImageConfig.defaults (some o))).preserved
        = true ∧
    (metadataEffect (applyOutputFormat defaultImageConfig (some o)).1).preserved = false ∧
    applyOutputFormatMetaSecondVariant defaultImageConfig.defaults (some o)
      ≠ (applyOutputFormat defaultImageConfig (some o)).1 := by
  decide

/-- C6: a TransformSpec whose resize block sets `maxDimension` together
with a truthy `width` or `height` makes the pipeline throw the validation
error naming the conflict, with an empty codec-call trace: the throw
happens while the declarative chain is being built, before any pixel
processing. -/
theorem claim6_resize_conflict (cfg : ImageConfig) (input : Dims) (mimeType : String)
    (t : TransformDto) (output : Option OutputDto) (watermark : Option WatermarkFile)
    (r : ResizeDto)
    (hm : validMime mimeType = true)
    (hr : t.resize = some r)
    (hmax : truthyNat r.maxDimension = true)
    (hwh : (truthyNat r.width || truthyNat r.height) = true) :
    processStream cfg input mimeType (some t) output watermark =
      ([], .error (.badRequest "Cannot use maxDimension together with width/height")) := by
  have hstep : resizeStep t.resize =
      .error (.badRequest "Cannot use maxDimension together with width/height") := by
    simp [resizeStep, hr, hmax, hwh]
  have htr : applyTransformations cfg.defaults (some t) =
      .error (.badRequest "Cannot use maxDimension together with width/height") := by
    simp [applyTransformations, hstep, Except.map]
  simp [processStream, hm, htr]

/-- C6, witness: `resize := {maxDimension := 1000, width := 500}` is
rejected with the conflict message and zero codec calls. -/
theorem claim6_resize_conflict_witness :
    processStream defaultImageConfig ⟨100, 100⟩ "image/png"
      (some ⟨none, none, some ⟨some 1000, some 500, none, none, none, none⟩,
        none, none, none, none, none⟩) none none =
      ([], .error (.badRequest "Cannot use maxDimension together with width/height")) := by
  exact claim6_resize_conflict defaultImageConfig ⟨100, 100⟩ "image/png"
    ⟨none, none, some ⟨some 1000, some 500, none, none, none, none⟩,
      none, none, none, none, none⟩ none none
    ⟨some 1000, some 500, none, none, none, none⟩
    (by decide) rfl (by decide) (by decide)

/-- C2, the code bug evaluated at the failing input: input 1000x1000,
transform {autoOrient := false, crop := 100x100 at the origin} with a
watermark at scale 20. The geometric chain is the single crop, whose
post-transform base image is 100x100, but the dimensions handed to the
compositor are the input's native 1000x1000: `pipeline.metadata()` reads
the input header and ignores the chained operations, so the overlay is
scaled against the original input dimensions (target 200px instead of the
20px the claim requires). -/
theorem claim2_compositor_gets_input_dims :
    applyTransformations defaultImageConfig.defaults
        (some ⟨some false, some ⟨0, 0, 100, 100⟩, none, none, none, none, none,
          some ⟨none, none, none, some 20, none⟩⟩) =
      .ok [.extract ⟨0, 0, 100, 100⟩] ∧
    specPostTransformDims ⟨1000, 1000⟩ [.extract ⟨0, 0, 100, 100⟩] = ⟨100, 100⟩ ∧
    (processStream defaultImageConfig ⟨1000, 1000⟩ "image/png"
        (some ⟨some false, some ⟨0, 0, 100, 100⟩, none, none, none, none, none,
          some ⟨none, none, none, some 20, none⟩⟩) none
        (some ⟨⟨400, 400⟩⟩)).2.map (·.watermarkBaseDims) =
      .ok (some ⟨1000, 1000⟩) ∧
    (⟨1000, 1000⟩ : Dims) ≠ ⟨100, 100⟩ ∧
    scaleWatermark ⟨400, 400⟩ 20 1000 1000 = ⟨200, 200⟩ ∧
    scaleWatermark ⟨400, 400⟩ 20 100 100 = ⟨20, 20⟩ := by
  exact ⟨rfl, rfl, rfl, by decide, rfl, rfl⟩

/-! Helper lemmas for the fixed-order theorem. -/

/-- `filter` over a cons, phrased as an append of an optional singleton. -/
theorem filter_cons_append {α : Type} (p : α → Bool) (x : α) (xs : List α) :
    List.filter p (x :: xs) = (if p x then [x] else []) ++ List.filter p xs := by
  by_cases h : p x <;> simp [List.filter_cons, h]

/-- Mapping over an optional singleton. -/
theorem map_if_single {α β : Type} (f : α → β) (b : Bool) (x : α) :
    (if b then [x] else []).map f = if b then [f x] else [] := by
  cases b <;> simp

/-- The steps of the resize block: one resize instruction exactly when a
truthy dimension was requested. -/
theorem resizeStep_ok_steps (r? : Option ResizeDto) (l : List SharpOp)
    (h : resizeStep r? = .ok l) :
    l.map stepOf = if resizeRequested r? then [Step.resize] else [] := by
  cases r? with
  | none =>
    simp [resizeStep] at h
    simp [h, resizeRequested]
  | some r =>
    simp only [resizeStep] at h
    by_cases h1 : (truthyNat r.maxDimension && (truthyNat r.width || truthyNat r.height)) = true
    · simp [h1] at h
    · simp only [h1, if_false, Bool.false_eq_true] at h
      by_cases h2 : truthyNat r.maxDimension = true
      · simp only [h2, if_true] at h
        rw [Except.ok.injEq] at h
        subst h
        simp [resizeRequested, stepOf, h2]
      · simp only [h2, if_false, Bool.false_eq_true] at h
        by_cases h3 : (truthyNat r.width || truthyNat r.height) = true
        · simp only [h3, if_true] at h
          rw [Except.ok.injEq] at h
          subst h
          simp [resizeRequested, stepOf, h2, h3]
        · simp only [h3, if_false, Bool.false_eq_true] at h
          rw [Except.ok.injEq] at h
          subst h
          have h2f : truthyNat r.maxDimension = false := by
            revert h2
            cases truthyNat r.maxDimension <;> simp
          have h3f : (truthyNat r.width || truthyNat r.height) = false := by
            revert h3
            cases truthyNat r.width <;> cases truthyNat r.height <;> simp
          simp [resizeRequested, h2f, Bool.or_assoc, h3f]

/-- The steps of the transform chain are the first seven steps of the
fixed order, restricted to the requested ones. -/
theorem transformChain_steps (d : ImageDefaults) (t : TransformDto) (wmp : Bool)
    (rops : List SharpOp)
    (hr : rops.map stepOf = if resizeRequested t.resize then [Step.resize] else []) :
    (transformChain d t rops).map stepOf =
      List.filter (requestedStep d (some t) wmp)
        [.orient, .crop, .resize, .flip, .flop, .rotate, .flatten] := by
  obtain ⟨ao, cr, rs, fl, fo, ro, fa, wm⟩ := t
  unfold transformChain
  simp only at hr
  cases cr <;> cases ro <;> cases fa <;>
    simp [requestedStep, truthyStr, stepOf, map_if_single, hr, filter_cons_append,
      List.append_assoc, List.map_append, apply_ite (List.map stepOf)]

/-- The steps of the whole transform phase, also covering the no-transform
default. -/
theorem applyTransformations_steps (d : ImageDefaults) (t? : Option TransformDto)
    (wmp : Bool) (l : List SharpOp)
    (h : applyTransformations d t? = .ok l) :
    l.map stepOf =
      List.filter (requestedStep d t? wmp)
        [.orient, .crop, .resize, .flip, .flop, .rotate, .flatten] := by
  cases t? with
  | none =>
    by_cases ha : d.autoOrient <;>
      simp [applyTransformations, ha] at h <;>
      subst h <;>
      simp [requestedStep, resizeRequested, truthyBool, truthyStr, ha, stepOf]
  | some t =>
    cases hres : resizeStep t.resize with
    | error e =>
      simp [applyTransformations, hres, Except.map] at h
    | ok rops =>
      simp [applyTransformations, hres, Except.map] at h
      subst h
      exact transformChain_steps d t wmp rops (resizeStep_ok_steps t.resize rops hres)

/-- C1: for every request the pipeline accepts, the issued instruction
sequence, viewed as abstract steps, is exactly the fixed order
orient, crop, resize, flip, flop, rotate, flatten, watermark, encode
restricted to the requested operations. -/
theorem claim1_fixed_operation_order (cfg : ImageConfig) (input : Dims) (mimeType : String)
    (t? : Option TransformDto) (o? : Option OutputDto) (wm? : Option WatermarkFile)
    (hm : validMime mimeType = true)
    (hok : exceptOk (applyTransformations cfg.defaults t?) = true) :
    stepsOf (processStream cfg input mimeType t? o? wm?).2 =
      .ok (List.filter (requestedStep cfg.defaults t? wm?.isSome) fixedOrder) := by
  cases hl : applyTransformations cfg.defaults t? with
  | error e =>
    rw [hl] at hok
    simp [exceptOk] at hok
  | ok l =>
    have hsteps := applyTransformations_steps cfg.defaults t? wm?.isSome l hl
    have hfix : fixedOrder =
        [Step.orient, .crop, .resize, .flip, .flop, .rotate, .flatten] ++
          [Step.watermark, Step.encode] := rfl
    rw [hfix, List.filter_append]
    cases hw : wm? with
    | none =>
      rw [hw] at hsteps
      cases htb : t?.bind (·.watermark) <;>
        simp [processStream, hm, hl, htb, stepsOf, Except.map, hsteps, requestedStep,
          stepOf, filter_cons_append]
    | some wmFile =>
      rw [hw] at hsteps
      cases htb : t?.bind (·.watermark) with
      | none =>
        simp [processStream, hm, hl, htb, stepsOf, Except.map, hsteps, requestedStep,
          stepOf, filter_cons_append]
      | some wcfg =>
        simp [processStream, hm, hl, htb, stepsOf, Except.map, hsteps, requestedStep,
          stepOf, filter_cons_append]

/-! Numeric lemmas for the watermark scaling claim. -/

/-- The integer rounding `jsRoundDiv a b` sits within one half of the
rational value `a / b`. -/
theorem jsRoundDiv_close (a b : Nat) (hb : 0 < b) :
    |(jsRoundDiv a b : ℚ) - (a : ℚ) / (b : ℚ)| ≤ 1 / 2 := by
  have hb0 : (0 : ℚ) < (b : ℚ) := by exact_mod_cast hb
  have hmod := Nat.div_add_mod (2 * a + b) (2 * b)
  have hrlt : (2 * a + b) % (2 * b) < 2 * b := Nat.mod_lt _ (by omega)
  have h1 : 2 * b * ((2 * a + b) / (2 * b)) ≤ 2 * a + b := by omega
  have h2 : 2 * a + b < 2 * b * ((2 * a + b) / (2 * b)) + 2 * b := by omega
  have hjr : jsRoundDiv a b = (2 * a + b) / (2 * b) := rfl
  rw [hjr]
  have hq1 : (2 : ℚ) * b * (((2 * a + b) / (2 * b) : ℕ) : ℚ) ≤ 2 * a + b := by
    exact_mod_cast h1
  have hq2 : (2 : ℚ) * a + b < 2 * b * (((2 * a + b) / (2 * b) : ℕ) : ℚ) + 2 * b := by
    exact_mod_cast h2
  rw [abs_le]
  constructor
  · have habl : (a : ℚ) / b ≤ (((2 * a + b) / (2 * b) : ℕ) : ℚ) + 1 / 2 := by
      rw [div_le_iff₀ hb0]
      nlinarith
    linarith
  · have habu : (((2 * a + b) / (2 * b) : ℕ) : ℚ) ≤ (a : ℚ) / b + 1 / 2 := by
      rw [← sub_le_iff_le_add, le_div_iff₀ hb0]
      nlinarith
    linarith

/-- Rounding an exact multiple: `round ((w * t) / w) = t`. -/
theorem jsRoundDiv_mul_self (t w : Nat) (hw : 0 < w) : jsRoundDiv (w * t) w = t := by
  unfold jsRoundDiv
  rw [show 2 * (w * t) + w = w * (2 * t + 1) by ring, show 2 * w = w * 2 by ring,
    Nat.mul_div_mul_left _ _ hw]
  omega

/-- The non-binding dimension of an inside fit stays within the box:
`round ((h * t) / w) ≤ t` when `h ≤ w`. -/
theorem jsRoundDiv_le_box (h t w : Nat) (hsub : h ≤ w) (hw : 0 < w) :
    jsRoundDiv (h * t) w ≤ t := by
  unfold jsRoundDiv
  rw [Nat.div_le_iff_le_mul_add_pred (by omega)]
  calc 2 * (h * t) + w ≤ 2 * (w * t) + w :=
        Nat.add_le_add_right (Nat.mul_le_mul_left 2 (Nat.mul_le_mul_right t hsub)) w
    _ ≤ 2 * w * t + (2 * w - 1) := by
        rw [Nat.mul_assoc]
        exact Nat.add_le_add_left (by omega) _

/-- Inside fit with a box at least as large as both native dimensions keeps
the native dimensions (withoutEnlargement). -/
theorem insideFitNoEnlarge_id (native : Dims) (box : Nat)
    (h1 : native.width ≤ box) (h2 : native.height ≤ box) :
    insideFitNoEnlarge native box = native := by
  unfold insideFitNoEnlarge
  rw [if_pos ⟨h1, h2⟩]

/-- Inside fit with a box strictly smaller than the larger native dimension
scales so that the larger output dimension equals the box. -/
theorem insideFitNoEnlarge_larger (native : Dims) (box : Nat)
    (hw : 1 ≤ native.width) (hh : 1 ≤ native.height)
    (hlt : box < max native.width native.height) :
    max (insideFitNoEnlarge native box).width (insideFitNoEnlarge native box).height
      = box := by
  unfold insideFitNoEnlarge
  rw [if_neg (by
    rintro ⟨h1, h2⟩
    exact absurd (lt_of_le_of_lt (max_le h1 h2) hlt) (lt_irrefl _))]
  split
  · rename_i hhw
    simp only
    rw [jsRoundDiv_mul_self box native.width (by omega)]
    exact Nat.max_eq_left (jsRoundDiv_le_box native.height box native.width hhw (by omega))
  · rename_i hhw
    simp only
    rw [jsRoundDiv_mul_self box native.height (by omega)]
    exact Nat.max_eq_right (jsRoundDiv_le_box native.width box native.height (by omega) (by omega))

/-- C4: the overlay is resized proportionally into a square box of
`round (min(baseWidth, baseHeight) * scalePercent / 100)`: when the box is
smaller than the overlay's larger native dimension, the scaled overlay's
larger dimension equals the box, hence lies within one pixel of
`scalePercent% × min(baseWidth, baseHeight)`; when the target box reaches
the native size, the overlay keeps its native dimensions (never
upscaled). -/
theorem claim4_watermark_scaling (wm : Dims) (s bw bh : Nat)
    (hw : 1 ≤ wm.width) (hh : 1 ≤ wm.height) :
    (max wm.width wm.height ≤ jsRoundDiv (min bw bh * s) 100 →
      scaleWatermark wm s bw bh = wm) ∧
    (jsRoundDiv (min bw bh * s) 100 < max wm.width wm.height →
      max (scaleWatermark wm s bw bh).width (scaleWatermark wm s bw bh).height =
        jsRoundDiv (min bw bh * s) 100 ∧
      |(max (scaleWatermark wm s bw bh).width (scaleWatermark wm s bw bh).height : ℚ) -
        (min bw bh : ℚ) * ((s : ℚ) / 100)| ≤ 1) := by
  constructor
  · intro hle
    exact insideFitNoEnlarge_id wm _ (le_trans (le_max_left _ _) hle)
      (le_trans (le_max_right _ _) hle)
  · intro hlt
    have hmax := insideFitNoEnlarge_larger wm _ hw hh hlt
    refine ⟨hmax, ?_⟩
    rw [show scaleWatermark wm s bw bh =
      insideFitNoEnlarge wm (jsRoundDiv (min bw bh * s) 100) from rfl,
      ← Nat.cast_max, hmax]
    have hclose := jsRoundDiv_close (min bw bh * s) 100 (by omega)
    have hcast : ((min bw bh * s : ℕ) : ℚ) / ((100 : ℕ) : ℚ) =
        (min bw bh : ℚ) * ((s : ℚ) / 100) := by
      push_cast
      ring
    rw [hcast] at hclose
    exact le_trans hclose (by norm_num)

/-- C4, witness: base 1000x1000, overlay 300x150, scalePercent 20: the
scaled overlay's larger dimension is the 200-pixel box, within one pixel of
20% × 1000. -/
theorem claim4_watermark_scaling_witness :
    jsRoundDiv (min 1000 1000 * 20) 100 < max 300 150 ∧
    (max (scaleWatermark ⟨300, 150⟩ 20 1000 1000).width
        (scaleWatermark ⟨300, 150⟩ 20 1000 1000).height =
      jsRoundDiv (min 1000 1000 * 20) 100 ∧
     |(max (scaleWatermark ⟨300, 150⟩ 20 1000 1000).width
        (scaleWatermark ⟨300, 150⟩ 20 1000 1000).height : ℚ) -
       (min ((1000 : ℕ) : ℚ) ((1000 : ℕ) : ℚ)) * (((20 : ℕ) : ℚ) / 100)| ≤ 1) :=
  ⟨by decide,
   (claim4_watermark_scaling ⟨300, 150⟩ 20 1000 1000 (by decide) (by decide)).2 (by decide)⟩

/-- `jsCeilDiv a b` is the rational ceiling of `a / b` for positive `b`. -/
theorem jsCeilDiv_eq_ceil (a b : Nat) (hb : 0 < b) :
    (jsCeilDiv a b : ℤ) = ⌈(a : ℚ) / (b : ℚ)⌉ := by
  have hb0 : (0 : ℚ) < b := by exact_mod_cast hb
  unfold jsCeilDiv
  have h1 : (a + b - 1) / b * b ≤ a + b - 1 := Nat.div_mul_le_self _ _
  have h2 : a + b - 1 < ((a + b - 1) / b + 1) * b :=
    (Nat.div_lt_iff_lt_mul hb).mp (Nat.lt_succ_self _)
  rw [Nat.succ_mul] at h2
  obtain ⟨Q, hQ⟩ : ∃ Q, Q = (a + b - 1) / b * b := ⟨_, rfl⟩
  rw [← hQ] at h1 h2
  have ha1 : a ≤ Q := by omega
  have ha2 : Q < a + b := by omega
  have hq1 : (a : ℚ) ≤ (Q : ℚ) := by exact_mod_cast ha1
  have hq2 : (Q : ℚ) < (a : ℚ) + b := by exact_mod_cast ha2
  have hQc : (Q : ℚ) = (((a + b - 1) / b : ℕ) : ℚ) * b := by exact_mod_cast congrArg Nat.cast hQ
  symm
  rw [Int.ceil_eq_iff]
  constructor
  · rw [Int.cast_natCast, sub_lt_iff_lt_add, div_add_one (ne_of_gt hb0), lt_div_iff₀ hb0]
    nlinarith
  · rw [Int.cast_natCast, div_le_iff₀ hb0]
    nlinarith

/-- C5: tile-mode placements form the regular grid
`cols = ceil(baseWidth / (scaledWidth + spacing))` by
`rows = ceil(baseHeight / (scaledHeight + spacing))`, each copy at
`(left, top) = (col * (scaledWidth + spacing), row * (scaledHeight +
spacing))`; the gravity/position setting has no effect on the result
(spacing 0 included, giving contiguous tiling). -/
theorem claim5_tile_grid (wmNative : Dims) (config : WatermarkDto) (w h : Nat)
    (hcw : 0 < (scaleWatermark wmNative (config.scale.getD 10) w h).width +
      config.spacing.getD 0)
    (hch : 0 < (scaleWatermark wmNative (config.scale.getD 10) w h).height +
      config.spacing.getD 0) :
    (createTiledWatermark wmNative config w h).2.length =
      jsCeilDiv h ((scaleWatermark wmNative (config.scale.getD 10) w h).height +
          config.spacing.getD 0) *
        jsCeilDiv w ((scaleWatermark wmNative (config.scale.getD 10) w h).width +
          config.spacing.getD 0) ∧
    (jsCeilDiv w ((scaleWatermark wmNative (config.scale.getD 10) w h).width +
        config.spacing.getD 0) : ℤ) =
      ⌈(w : ℚ) / (((scaleWatermark wmNative (config.scale.getD 10) w h).width +
        config.spacing.getD 0 : ℕ) : ℚ)⌉ ∧
    (∀ p, p ∈ (createTiledWatermark wmNative config w h).2 ↔
      ∃ row, row < jsCeilDiv h ((scaleWatermark wmNative (config.scale.getD 10) w h).height +
          config.spacing.getD 0) ∧
        ∃ col, col < jsCeilDiv w ((scaleWatermark wmNative (config.scale.getD 10) w h).width +
            config.spacing.getD 0) ∧
          p = .at (row * ((scaleWatermark wmNative (config.scale.getD 10) w h).height +
              config.spacing.getD 0))
            (col * ((scaleWatermark wmNative (config.scale.getD 10) w h).width +
              config.spacing.getD 0))) ∧
    (∀ pos, (createTiledWatermark wmNative { config with position := pos } w h).2 =
      (createTiledWatermark wmNative config w h).2) := by
  refine ⟨?_, jsCeilDiv_eq_ceil w _ hcw, ?_, ?_⟩
  · unfold createTiledWatermark
    simp only
    rw [List.length_flatMap]
    have hrep : ∀ (rows cols : Nat) (g : Nat → Nat → OverlayPlacement),
        (List.map (List.length ∘ fun row => List.map (fun col => g row col) (List.range cols))
          (List.range rows)) = List.replicate rows cols := by
      intro rows cols g
      rw [List.eq_replicate_iff]
      constructor
      · simp
      · intro b hb
        simp at hb
        simp_all
    rw [hrep, List.sum_replicate, smul_eq_mul]
  · intro p
    unfold createTiledWatermark
    simp only
    simp [List.mem_flatMap, List.mem_map, List.mem_range, eq_comm]
  · intro pos
    obtain ⟨m, po, op, sc, sp⟩ := config
    rfl

/-- C5, witness: 100x100 overlay scaled to 50x50 against a 200x200 base
(scale 25), spacing 10: a 4 by 4 grid of 16 placements, position
irrelevant. -/
theorem claim5_tile_grid_witness :
    (createTiledWatermark ⟨100, 100⟩ ⟨some .tile, some "northwest", none, some 25, some 10⟩
      200 200).2.length = 16 ∧
    (createTiledWatermark ⟨100, 100⟩ ⟨some .tile, some "center", none, some 25, some 10⟩
        200 200).2 =
      (createTiledWatermark ⟨100, 100⟩ ⟨some .tile, some "northwest", none, some 25, some 10⟩
        200 200).2 := by
  have h := claim5_tile_grid ⟨100, 100⟩ ⟨some .tile, some "northwest", none, some 25, some 10⟩
    200 200 (by decide) (by decide)
  constructor
  · rw [h.1]
    decide
  · exact h.2.2.2 (some "center")

/-- From any state with at least one concurrency slot, the queue progress
steps drain to an idle state in which every job that was waiting or running
has been completed and delivered; no step consults or changes the shutdown
flag. -/
theorem queue_drains (n : Nat) :
    ∀ s : QueueState, 2 * s.waiting.length + s.running.length = n →
      1 ≤ s.maxConcurrency →
      ∃ s2, QReach s s2 ∧ queueIdle s2 ∧ s2.isShuttingDown = s.isShuttingDown ∧
        (∀ k, k ∈ s.completed → k ∈ s2.completed) ∧
        (∀ k, k ∈ s.waiting ++ s.running → k ∈ s2.completed) := by
  induction n using Nat.strong_induction_on with
  | _ n ih =>
    intro s hn hc
    cases hr : s.running with
    | cons j rs =>
      have hstep := QStep.complete s j rs hr
      have hm : 2 * s.waiting.length + rs.length < n := by
        rw [← hn, hr]
        simp only [List.length_cons]
        omega
      obtain ⟨s2, hreach, hidle, hflag, hcomp, hjobs⟩ :=
        ih _ hm { s with running := rs, completed := s.completed ++ [j] } rfl hc
      refine ⟨s2, Relation.ReflTransGen.head hstep hreach, hidle, hflag, ?_, ?_⟩
      · intro k hk
        exact hcomp k (by simp [hk])
      · intro k hk
        rw [List.mem_append] at hk
        rcases hk with hk | hk
        · exact hjobs k (by simp [hk])
        · rw [List.mem_cons] at hk
          rcases hk with hk | hk
          · subst hk
            exact hcomp k (by simp)
          · exact hjobs k (by simp [hk])
    | nil =>
      cases hw : s.waiting with
      | nil =>
        exact ⟨s, Relation.ReflTransGen.refl, ⟨hw, hr⟩, rfl, fun k hk => hk,
          by intro k hk; simp at hk⟩
      | cons j rest =>
        have hcap : s.running.length < s.maxConcurrency := by
          rw [hr]
          simpa using hc
        have hstep := QStep.start s j rest hw hcap
        have hm : 2 * rest.length + (s.running ++ [j]).length < n := by
          rw [← hn, hw, hr]
          simp only [List.length_append, List.length_cons, List.length_nil]
          omega
        obtain ⟨s2, hreach, hidle, hflag, hcomp, hjobs⟩ :=
          ih _ hm { s with waiting := rest, running := s.running ++ [j] } rfl hc
        refine ⟨s2, Relation.ReflTransGen.head hstep hreach, hidle, hflag, hcomp, ?_⟩
        intro k hk
        simp at hk
        rcases hk with hk | hk
        · subst hk
          exact hjobs k (by simp)
        · exact hjobs k (by simp [hk])

/-- C8: after `onModuleDestroy` sets the shutdown flag, the next admission
is rejected with ServiceUnavailable and the flag flip leaves the waiting
and running collections untouched; from that state the queue drains —
through steps that never consult the flag — to an idle state in which every
job that was queued or running at shutdown has completed and delivered its
result, and only that idle state completes the shutdown (`onIdle`). -/
theorem claim8_graceful_shutdown (s : QueueState) (j : Job)
    (hc : 1 ≤ s.maxConcurrency) :
    (addTask (triggerShutdown s) j).2 = .rejected .serviceUnavailable ∧
    (triggerShutdown s).waiting = s.waiting ∧
    (triggerShutdown s).running = s.running ∧
    ∃ s2, QReach (triggerShutdown s) s2 ∧ queueIdle s2 ∧ s2.isShuttingDown = true ∧
      ∀ k, k ∈ s.waiting ++ s.running → k ∈ s2.completed := by
  refine ⟨by simp [addTask, triggerShutdown], rfl, rfl, ?_⟩
  obtain ⟨s2, hreach, hidle, hflag, _, hjobs⟩ :=
    queue_drains (2 * s.waiting.length + s.running.length) (triggerShutdown s) rfl hc
  exact ⟨s2, hreach, hidle, hflag, fun k hk => hjobs k hk⟩

/-- C8, witness: a queue with one waiting and one running job at shutdown:
the admission right after the flag flip is rejected ServiceUnavailable, and
the drain completes both jobs. -/
theorem claim8_graceful_shutdown_witness :
    1 ≤ (2 : Nat) ∧
    ((addTask (triggerShutdown ⟨false, [3], [7], [], 10, 2⟩) 9).2 =
        .rejected .serviceUnavailable ∧
     (triggerShutdown (⟨false, [3], [7], [], 10, 2⟩ : QueueState)).waiting = [3] ∧
     (triggerShutdown (⟨false, [3], [7], [], 10, 2⟩ : QueueState)).running = [7] ∧
     ∃ s2, QReach (triggerShutdown ⟨false, [3], [7], [], 10, 2⟩) s2 ∧ queueIdle s2 ∧
       s2.isShuttingDown = true ∧
       ∀ k, k ∈ ([3] : List Job) ++ [7] → k ∈ s2.completed) :=
  ⟨by decide, claim8_graceful_shutdown ⟨false, [3], [7], [], 10, 2⟩ 9 (by decide)⟩

/-- C1, witness: autoOrient, crop, flip, rotate, flatten and a watermark
requested (no resize, no flop) yield exactly
[orient, crop, flip, rotate, flatten, watermark, encode]. -/
theorem claim1_fixed_operation_order_witness :
    stepsOf (processStream defaultImageConfig ⟨800, 600⟩ "image/jpeg"
      (some ⟨some true, some ⟨10, 20, 100, 50⟩, none, some true, none, some 90,
        some "#ffffff", some ⟨none, none, none, none, none⟩⟩)
      none (some ⟨⟨120, 40⟩⟩)).2 =
      .ok [.orient, .crop, .flip, .rotate, .flatten, .watermark, .encode] := by
  have h := claim1_fixed_operation_order defaultImageConfig ⟨800, 600⟩ "image/jpeg"
    (some ⟨some true, some ⟨10, 20, 100, 50⟩, none, some true, none, some 90,
      some "#ffffff", some ⟨none, none, none, none, none⟩⟩)
    none (some ⟨⟨120, 40⟩⟩) (by decide) (by decide)
  rw [h]
  exact congrArg Except.ok (by decide)

end ImageService
